/-
Verification of the EasyGA population / gene / crossover layer.

The Python sources are shallowly embedded:
  * `src/structure/population.py` : `Population` below, with the three list
    slots (`chromosome_list`, `mating_pool`, `next_population`) as Lean lists
    over an abstract chromosome type.
  * `src/structure/gene.py` : the object model `Obj` with explicit object
    identities, so that deep-copy versus aliasing is observable.
  * `src/crossover/crossover_methods.py` : the individual recombination
    methods, with every random draw passed in as an explicit argument.

Python exceptions are modelled by `Except PyError`; Python integers by `Int`,
Python floats by `Rat` (the weights and gene values the claims touch are
compared exactly, never through float rounding).  Python list indexing keeps
its negative-index semantics, see `pyGet` and `list_pop`.
-/
import Mathlib

namespace EasyGA

/-- The Python exception kinds that can escape the embedded code.
`chromosomeNotFound` is the raise at the end of the guessed search in
`Population.index_of` (an `IndexError` in the source; the design taxonomy
calls it `ChromosomeNotFound`), `indexOutOfRange` is the `IndexError` of list
indexing and `list.pop`, `invalidWeight` is the `ValueError` raised by the
`check_weight` decorator, `nameError` and `typeError` are the corresponding
Python built-in exceptions, and `zeroDivisionError` models `guess %= 0`. -/
inductive PyError where
  | invalidWeight
  | indexOutOfRange
  | chromosomeNotFound
  | nameError
  | typeError
  | zeroDivisionError
  deriving DecidableEq, Repr

/-- Equality of embedded outcomes is decidable, so concrete runs of the
embedded code can be checked by evaluation. -/
instance {e a : Type} [DecidableEq e] [DecidableEq a] :
    DecidableEq (Except e a) := fun x y =>
  match x, y with
  | .error u, .error v =>
    if h : u = v then .isTrue (by rw [h]) else .isFalse (by simp [h])
  | .ok u, .ok v =>
    if h : u = v then .isTrue (by rw [h]) else .isFalse (by simp [h])
  | .error _, .ok _ => .isFalse (by simp)
  | .ok _, .error _ => .isFalse (by simp)

/-- Effective position of the Python list index `i` in a list of length
`len`: a negative index counts from the end. -/
def pyIdx (len : Nat) (i : Int) : Int :=
  if i < 0 then i + len else i

/-- Python list read `xs[i]`: a negative index counts from the end, and an
index outside `[-len, len)` raises `IndexError`. -/
def pyGet {α : Type} (xs : List α) (i : Int) : Except PyError α :=
  if pyIdx xs.length i < 0 then .error .indexOutOfRange
  else
    match xs.get? (pyIdx xs.length i).toNat with
    | some a => .ok a
    | none => .error .indexOutOfRange

/-- Python `xs.pop(i)`: remove and return the element at index `i`, with the
same negative-index convention as `pyGet`; raises `IndexError` when `i` is
outside `[-len, len)`. -/
def list_pop {α : Type} (xs : List α) (i : Int) : Except PyError (α × List α) :=
  if pyIdx xs.length i < 0 then .error .indexOutOfRange
  else
    match xs.get? (pyIdx xs.length i).toNat with
    | some a => .ok (a, xs.eraseIdx (pyIdx xs.length i).toNat)
    | none => .error .indexOutOfRange

/-- The three slots of `Population` (`src/structure/population.py`):
`chromosome_list` is the current generation, `mating_pool` the selected
parents, `next_population` the staged offspring.  The chromosome type is
abstract; in theorems that talk about object identity the elements are read
as object references. -/
structure Population (α : Type) where
  chromosome_list : List α
  mating_pool : List α
  next_population : List α
  deriving DecidableEq, Repr

namespace Population

variable {α : Type}

/-- `reset_mating_pool`: clears the mating pool. -/
def reset_mating_pool (p : Population α) : Population α :=
  { p with mating_pool := [] }

/-- `reset_next_population`: clears the next population. -/
def reset_next_population (p : Population α) : Population α :=
  { p with next_population := [] }

/-- `update`: sets `chromosome_list` to `next_population`, then clears the
mating pool and the next population (the source calls the two reset
methods in that order). -/
def update (p : Population α) : Population α :=
  reset_next_population (reset_mating_pool
    { p with chromosome_list := p.next_population })

/-- `remove_chromosome(index)`: `self.chromosome_list.pop(index)`. -/
def remove_chromosome (p : Population α) (i : Int) :
    Except PyError (α × Population α) :=
  (list_pop p.chromosome_list i).map
    fun r => (r.1, { p with chromosome_list := r.2 })

/-- `remove_parent(index)`: `self.mating_pool.pop(index)`. -/
def remove_parent (p : Population α) (i : Int) :
    Except PyError (α × Population α) :=
  (list_pop p.mating_pool i).map
    fun r => (r.1, { p with mating_pool := r.2 })

/-- `remove_child(index)`: `self.next_population.pop(index)`. -/
def remove_child (p : Population α) (i : Int) :
    Except PyError (α × Population α) :=
  (list_pop p.next_population i).map
    fun r => (r.1, { p with next_population := r.2 })

/-- `append_children(chromosome_list)`:
`self.next_population = chromosome_list + self.next_population`. -/
def append_children (p : Population α) (xs : List α) : Population α :=
  { p with next_population := xs ++ p.next_population }

/-- `add_parent(chromosome)`: `self.mating_pool.append(chromosome)`.  Python
`append` stores the argument object itself, so under the reference reading
the appended entry aliases the argument. -/
def add_parent (p : Population α) (c : α) : Population α :=
  { p with mating_pool := p.mating_pool ++ [c] }

/-- `set_parent(index)`: `self.add_parent(self[index])`.  `self[index]` is
`self.chromosome_list[index]`, returned as is: no copy is made before the
append. -/
def set_parent (p : Population α) (i : Int) : Except PyError (Population α) :=
  (pyGet p.chromosome_list i).map (add_parent p)

end Population

/-- The probe loop of the guessed branch of `index_of`:
`for i in range(len(self)//2)`, checking `self[guess-i]` then
`self[guess+i]` and returning the matching probe reduced mod the length;
when the loop completes, the source raises
`IndexError("No such chromosome in the population found")`.
`i` is the current loop counter, `r` the number of iterations left. -/
def index_search {α : Type} [DecidableEq α] (xs : List α) (c : α) (g : Int) :
    Nat → Nat → Except PyError Nat
  | _, 0 => .error .chromosomeNotFound
  | i, r + 1 =>
    match pyGet xs (g - i) with
    | .error e => .error e
    | .ok x =>
      if x = c then .ok (((g - i) % (xs.length : Int)).toNat)
      else
        match pyGet xs (g + i) with
        | .error e => .error e
        | .ok y =>
          if y = c then .ok (((g + i) % (xs.length : Int)).toNat)
          else index_search xs c g (i + 1) r

/-- The guessed branch of `Population.index_of`: `guess %= len(self)`
(`Int.emod` agrees with Python `%` for a positive modulus; length `0` raises
`ZeroDivisionError`), then `if guess >= len(self)//2: guess -= len(self)`
(`Int.ediv` agrees with Python `//` for a positive divisor), then the probe
loop over `range(len(self)//2)` iterations. -/
def index_of_guessed {α : Type} [DecidableEq α] (xs : List α) (c : α)
    (guess : Int) : Except PyError Nat :=
  if xs.length = 0 then .error .zeroDivisionError
  else
    let n : Int := xs.length
    let g0 := guess % n
    let g := if n / 2 ≤ g0 then g0 - n else g0
    index_search xs c g 0 (xs.length / 2)

namespace Population

/-- `index_of(chromosome, guess=None)`.  The no-guess branch executes
`return self.chromosome_list.index(gene)`, but no name `gene` is bound in the
method or the module, so that branch raises `NameError` before any search
happens.  The guessed branch is `index_of_guessed`. -/
def index_of {α : Type} [DecidableEq α] (p : Population α) (c : α)
    (guess : Option Int) : Except PyError Nat :=
  match guess with
  | none => .error .nameError
  | some g => index_of_guessed p.chromosome_list c g

end Population

/-! ### The gene object model (`src/structure/gene.py`)

Python objects carry an identity; `copy.deepcopy` produces a structurally
equal object tree with entirely fresh identities.  `Obj` records the identity
`oid` of every node.  An `Obj.withValue` node is any object exposing a
`value` attribute (a `Gene` is one such object, but so is any other
attribute carrier); an `Obj.atom` node is an object without a `value`
attribute, whose payload is abstracted to an integer. -/

/-- A Python object tree with explicit object identities. -/
inductive Obj where
  | atom (oid : Int) (payload : Int)
  | withValue (oid : Int) (inner : Obj)
  deriving DecidableEq, Repr

/-- The shape of an object: the object tree with the identities erased.
Two objects are structurally equal (Python `==` on plain data) exactly when
their shapes agree. -/
inductive ObjShape where
  | atom (payload : Int)
  | withValue (inner : ObjShape)
  deriving DecidableEq, Repr

/-- Erase the identities of an object tree. -/
def Obj.shape : Obj → ObjShape
  | .atom _ v => .atom v
  | .withValue _ inner => .withValue inner.shape

/-- The identities occurring in an object tree. -/
def Obj.oids : Obj → List Int
  | .atom i _ => [i]
  | .withValue i inner => i :: inner.oids

/-- Reading the attribute `value` of an object: succeeds exactly on objects
exposing the attribute, otherwise Python raises `AttributeError` (modelled by
`none`). -/
def Obj.valueAttr : Obj → Option Obj
  | .atom _ _ => none
  | .withValue _ inner => some inner

/-- `copy.deepcopy`: rebuild the object tree with fresh identities drawn from
the counter `fresh`; returns the copy together with the next unused counter
value. -/
def deepcopy : Obj → Int → Obj × Int
  | .atom _ v, fresh => (.atom fresh v, fresh + 1)
  | .withValue _ inner, fresh =>
    let r := deepcopy inner fresh
    (.withValue r.2 r.1, r.2 + 1)

/-- `Gene.__init__(self, value)`:
`try: self.value = deepcopy(value.value) except: self.value = deepcopy(value)`.
When reading `value.value` succeeds the stored value is a deep copy of that
attribute (the argument need not be a `Gene`: any object exposing a `value`
attribute is unwrapped); when the read raises, the stored value is a deep
copy of the argument itself.  Both branches terminate normally, so
construction never raises.  The result is the stored `self.value` object
together with the advanced identity counter. -/
def gene_init (value : Obj) (fresh : Int) : Obj × Int :=
  match value.valueAttr with
  | some inner => deepcopy inner fresh
  | none => deepcopy value fresh

/-! ### The crossover methods (`src/crossover/crossover_methods.py`)

The random module is modelled by passing every drawn quantity as an explicit
argument.  The `genes_to_chromosome` decorator wraps the produced gene
sequence into a chromosome; the chromosome type is not under `src/`, so a
chromosome is identified with its gene list.  The `values_to_genes`
decorator wraps each produced value in a fresh `Gene`; at the value level it
is the identity on the produced sequence. -/

/-- The `check_weight` decorator: run the wrapped method when
`0 < weight < 1`, otherwise raise
`ValueError("Weight must be between 0 and 1 ...")` (`invalidWeight`). -/
def check_weight {β : Type} (m : Rat → Except PyError β) (w : Rat) :
    Except PyError β :=
  if 0 < w ∧ w < 1 then m w else .error .invalidWeight

/-- Python slice `xs[:-s]` for a nonnegative `s` (the source only forms it
with a nonnegative `swap_index`): for `s = 0` it is `xs[:0] = []`, otherwise
everything but the last `s` elements. -/
def pySliceDropLast {α : Type} (xs : List α) (s : Nat) : List α :=
  if s = 0 then [] else xs.take (xs.length - s)

/-- Python slice `xs[-s:]` for a nonnegative `s`: for `s = 0` it is
`xs[0:] = xs`, otherwise the last `s` elements. -/
def pySliceTakeLast {α : Type} (xs : List α) (s : Nat) : List α :=
  if s = 0 then xs else xs.drop (xs.length - s)

/-- Body of `single_point` (inside `check_weight` and
`genes_to_chromosome`).  When `weight == 0.5` the source executes
`swap_index = random.randrange(N)`, but no name `N` is bound anywhere in the
module (the other branch binds lowercase `n`), so that branch raises
`NameError`.  In the other branch the swap index is
`int(n*(1-(1-x)**t)**(1/t))` for a float draw `x`; the drawn index is passed
in as `weightedIdx`.  `choiceFirst` is the draw `random.choice([True,
False])` selecting which parent supplies the prefix. -/
def single_point_impl {α : Type} (p1 p2 : List α) (weightedIdx : Nat)
    (choiceFirst : Bool) (w : Rat) : Except PyError (List α) :=
  if w = 1 / 2 then .error .nameError
  else
    let swap := weightedIdx
    if choiceFirst then .ok (p1.take swap ++ p2.drop swap)
    else .ok (pySliceDropLast p2 swap ++ pySliceTakeLast p1 swap)

/-- `single_point` with its decorators: `check_weight` outside
`genes_to_chromosome` outside the body. -/
def single_point {α : Type} (p1 p2 : List α) (weightedIdx : Nat)
    (choiceFirst : Bool) (w : Rat) : Except PyError (List α) :=
  check_weight (single_point_impl p1 p2 weightedIdx choiceFirst) w

/-- Body of `multi_point`: the source body is `pass`, so the method returns
`None` (then `genes_to_chromosome` hands `None` to the chromosome
constructor, which is outside `src/`).  The returned `Option` is `none`. -/
def multi_point_impl {α : Type} (_p1 _p2 : List α) (_w : Rat) :
    Except PyError (Option (List α)) :=
  .ok none

/-- `multi_point` with its `check_weight` decorator. -/
def multi_point {α : Type} (p1 p2 : List α) (w : Rat) :
    Except PyError (Option (List α)) :=
  check_weight (multi_point_impl p1 p2) w

/-- The call `random.choice(gene_pair, cum_weights=[weight, 1])` in
`uniform`: `random.choice` accepts no `cum_weights` keyword argument
(`random.choices` would), so every such call raises `TypeError`
unconditionally. -/
def random_choice_cum_weights {α : Type} (_pair : α × α) (_cw : List Rat) :
    Except PyError α :=
  .error .typeError

/-- Consuming a Python generator that applies `f` to each element of a
list: the first raised exception aborts the whole consumption, otherwise the
produced values are collected in order. -/
def py_generator_map {α β : Type} (f : α → Except PyError β) :
    List α → Except PyError (List β)
  | [] => .ok []
  | x :: xs =>
    match f x with
    | .error e => .error e
    | .ok y =>
      match py_generator_map f xs with
      | .error e => .error e
      | .ok ys => .ok (y :: ys)

/-- Body of `uniform`: `for gene_pair in zip(parent_1, parent_2): yield
random.choice(gene_pair, cum_weights=[weight, 1])`.  Consuming the generator
(as `genes_to_chromosome` does to build the chromosome) raises `TypeError`
at the first pair; with no pairs the produced gene sequence is empty. -/
def uniform_impl {α : Type} (p1 p2 : List α) (w : Rat) :
    Except PyError (List α) :=
  py_generator_map (fun pair => random_choice_cum_weights pair [w, 1])
    (p1.zip p2)

/-- `uniform` with its `check_weight` decorator. -/
def uniform {α : Type} (p1 p2 : List α) (w : Rat) :
    Except PyError (List α) :=
  check_weight (uniform_impl p1 p2) w

/-- A numeric gene value: its rational value together with whether its
Python type is `int` (the arithmetic methods test
`type(value_1) == type(value_2) == int`). -/
structure PyNum where
  val : Rat
  isInt : Bool
  deriving DecidableEq, Repr

/-- Python built-in `round` to the nearest integer, ties to the even
integer. -/
def pyRound (x : Rat) : Int :=
  let f : Int := x.floor
  let r := x - f
  if r < 1 / 2 then f
  else if 1 / 2 < r then f + 1
  else if f % 2 = 0 then f else f + 1

/-- One step of `Arithmetic.average`:
`value = weight*value_1 + (1-weight)*value_2`, and when both source values
are Python ints, `value = round(value + random.uniform(-0.5, 0.5))`; the
jitter draw is the argument `j`. -/
def average_value (w j : Rat) (x y : PyNum) : PyNum :=
  let value := w * x.val + (1 - w) * y.val
  if x.isInt && y.isInt then ⟨(pyRound (value + j) : Int), true⟩
  else ⟨value, false⟩

/-- `Arithmetic.average` over the zipped parent values, with the per-position
jitter draws given by `jit`.  The source applies `genes_to_chromosome` and
`values_to_genes` but no `check_weight`: no weight validation happens and no
exception is raised for any weight. -/
def average (p1 p2 : List PyNum) (jit : Nat → Rat) (w : Rat) :
    Except PyError (List PyNum) :=
  .ok (((p1.zip p2).enum).map fun e => average_value w (jit e.1) e.2.1 e.2.2)

/-- One step of `Arithmetic.extrapolate`:
`value = (2-weight)*value_1 + (weight-1)*value_2`, with the same integer
jitter rounding as `average`. -/
def extrapolate_value (w j : Rat) (x y : PyNum) : PyNum :=
  let value := (2 - w) * x.val + (w - 1) * y.val
  if x.isInt && y.isInt then ⟨(pyRound (value + j) : Int), true⟩
  else ⟨value, false⟩

/-- `Arithmetic.extrapolate`: like `average`, no `check_weight` decorator,
so no weight validation happens and no exception is raised. -/
def extrapolate (p1 p2 : List PyNum) (jit : Nat → Rat) (w : Rat) :
    Except PyError (List PyNum) :=
  .ok (((p1.zip p2).enum).map fun e =>
    extrapolate_value w (jit e.1) e.2.1 e.2.2)

/-- One step of `Arithmetic.random`: both the `weight == 0.5` branch
(`random.uniform(value_1, value_2)`) and the weighted branch
(`value_1 + (value_2-value_1) * (1-(1-x)**t)**(1/t)`) draw a value
`value_1 + (value_2-value_1) * u` for a unit draw `u`, passed in as the
argument `u`; then the same integer jitter rounding as `average`. -/
def arithmetic_random_value (u j : Rat) (x y : PyNum) : PyNum :=
  let value := x.val + (y.val - x.val) * u
  if x.isInt && y.isInt then ⟨(pyRound (value + j) : Int), true⟩
  else ⟨value, false⟩

/-- Body of `Arithmetic.random` over the zipped parent values. -/
def arithmetic_random_impl (p1 p2 : List PyNum) (unit jit : Nat → Rat)
    (_w : Rat) : Except PyError (List PyNum) :=
  .ok (((p1.zip p2).enum).map fun e =>
    arithmetic_random_value (unit e.1) (jit e.1) e.2.1 e.2.2)

/-- `Arithmetic.random` with its `check_weight` decorator. -/
def arithmetic_random (p1 p2 : List PyNum) (unit jit : Nat → Rat) (w : Rat) :
    Except PyError (List PyNum) :=
  check_weight (arithmetic_random_impl p1 p2 unit jit) w

/-- A constant random stream drawing `0` at every position, used to
instantiate the oracle arguments of the randomized methods on concrete
runs. -/
def const_zero_draw : Nat → Rat := fun _ => 0

/-! ### Theorems -/

/-- Claim C1: `Population.update` replaces the member list with the staging
buffer exactly — the new `chromosome_list` is the old `next_population`,
neither merged with nor reordered relative to the old members — and
afterwards both the mating pool and the staging buffer are empty. -/
theorem update_commits_staging_exactly {α : Type} (p : Population α) :
    (p.update).chromosome_list = p.next_population ∧
    (p.update).mating_pool = [] ∧
    (p.update).next_population = [] := by
  refine ⟨rfl, rfl, rfl⟩

/-- Claim C8: `Population.append_children xs` sets the staging buffer to
`xs` followed by its previous content, leaving the other two slots
untouched. -/
theorem append_children_prepends {α : Type} (p : Population α)
    (xs : List α) :
    (p.append_children xs).next_population = xs ++ p.next_population ∧
    (p.append_children xs).chromosome_list = p.chromosome_list ∧
    (p.append_children xs).mating_pool = p.mating_pool := by
  refine ⟨rfl, rfl, rfl⟩

/-- Characterization of the Python `list.pop` model: it raises
`IndexError` exactly when the index is outside `[-len, len)`; a nonnegative
in-range index pops at that position, and a negative in-range index pops at
`len + i`. -/
theorem list_pop_spec {α : Type} (xs : List α) (i : Int) :
    (list_pop xs i = .error .indexOutOfRange ↔
        i < -(xs.length : Int) ∨ (xs.length : Int) ≤ i) ∧
    (0 ≤ i → i < (xs.length : Int) → ∀ a : α,
        xs.get? i.toNat = some a →
        list_pop xs i = .ok (a, xs.eraseIdx i.toNat)) ∧
    (-(xs.length : Int) ≤ i → i < 0 → ∀ a : α,
        xs.get? (i + xs.length).toNat = some a →
        list_pop xs i = .ok (a, xs.eraseIdx (i + xs.length).toNat)) := by
  have hlow : i < -(xs.length : Int) →
      list_pop xs i = .error .indexOutOfRange := by
    intro h
    simp only [list_pop, pyIdx, if_pos (show i < 0 by omega),
      if_pos (show i + (xs.length : Int) < 0 by omega)]
  have hhigh : (xs.length : Int) ≤ i →
      list_pop xs i = .error .indexOutOfRange := by
    intro h
    have hnone : xs.get? i.toNat = none := List.get?_eq_none.mpr (by omega)
    simp only [list_pop, pyIdx, if_neg (show ¬ i < 0 by omega), hnone]
  have hoknn : 0 ≤ i → i < (xs.length : Int) → ∀ a : α,
      xs.get? i.toNat = some a →
      list_pop xs i = .ok (a, xs.eraseIdx i.toNat) := by
    intro h1 h2 a hg
    simp only [list_pop, pyIdx, if_neg (show ¬ i < 0 by omega), hg]
  have hokneg : -(xs.length : Int) ≤ i → i < 0 → ∀ a : α,
      xs.get? (i + xs.length).toNat = some a →
      list_pop xs i = .ok (a, xs.eraseIdx (i + xs.length).toNat) := by
    intro h1 h2 a hg
    simp only [list_pop, pyIdx, if_pos h2,
      if_neg (show ¬ i + (xs.length : Int) < 0 by omega), hg]
  refine ⟨⟨?_, ?_⟩, hoknn, hokneg⟩
  · intro herr
    by_contra hc
    push_neg at hc
    by_cases h0 : 0 ≤ i
    · have hlt : i.toNat < xs.length := by omega
      have hg := List.get?_eq_get hlt
      rw [hoknn h0 (by omega) _ hg] at herr
      exact Except.noConfusion herr
    · have hlt : (i + xs.length).toNat < xs.length := by omega
      have hg := List.get?_eq_get hlt
      rw [hokneg (by omega) (by omega) _ hg] at herr
      exact Except.noConfusion herr
  · intro h
    rcases h with h | h
    · exact hlow h
    · exact hhigh h

/-- Helper: successful reads of the Python list-index model.  A nonnegative
in-range index reads at that position; a negative in-range index reads at
`len + i`. -/
theorem pyGet_spec {α : Type} (xs : List α) (i : Int) :
    (0 ≤ i → ∀ a : α, xs.get? i.toNat = some a → pyGet xs i = .ok a) ∧
    (-(xs.length : Int) ≤ i → i < 0 → ∀ a : α,
        xs.get? (i + xs.length).toNat = some a → pyGet xs i = .ok a) := by
  constructor
  · intro h0 a hg
    simp only [pyGet, pyIdx, if_neg (show ¬ i < 0 by omega), hg]
  · intro h0 h1 a hg
    simp only [pyGet, pyIdx, if_pos h1,
      if_neg (show ¬ i + (xs.length : Int) < 0 by omega), hg]

/-- Claim C7 (amended): the three removal methods pop from their slot with
Python index semantics — they fail with `IndexOutOfRange` exactly when the
index is outside `[-len, len)` of that slot (a negative in-range index is
accepted and counts from the end), and an in-range index removes and returns
the element at the effective position `pyIdx len i` (that is, at `i`, or at
`len + i` when `i` is negative), leaving the other two slots untouched. -/
theorem remove_methods_spec {α : Type} (p : Population α) (i : Int) :
    (p.remove_chromosome i = .error .indexOutOfRange ↔
        i < -(p.chromosome_list.length : Int) ∨
          (p.chromosome_list.length : Int) ≤ i) ∧
    (-(p.chromosome_list.length : Int) ≤ i →
      i < (p.chromosome_list.length : Int) → ∀ a : α,
      p.chromosome_list.get? (pyIdx p.chromosome_list.length i).toNat =
          some a →
      p.remove_chromosome i = .ok (a,
        ⟨p.chromosome_list.eraseIdx (pyIdx p.chromosome_list.length i).toNat,
         p.mating_pool, p.next_population⟩)) ∧
    (p.remove_parent i = .error .indexOutOfRange ↔
        i < -(p.mating_pool.length : Int) ∨
          (p.mating_pool.length : Int) ≤ i) ∧
    (-(p.mating_pool.length : Int) ≤ i →
      i < (p.mating_pool.length : Int) → ∀ a : α,
      p.mating_pool.get? (pyIdx p.mating_pool.length i).toNat = some a →
      p.remove_parent i = .ok (a,
        ⟨p.chromosome_list,
         p.mating_pool.eraseIdx (pyIdx p.mating_pool.length i).toNat,
         p.next_population⟩)) ∧
    (p.remove_child i = .error .indexOutOfRange ↔
        i < -(p.next_population.length : Int) ∨
          (p.next_population.length : Int) ≤ i) ∧
    (-(p.next_population.length : Int) ≤ i →
      i < (p.next_population.length : Int) → ∀ a : α,
      p.next_population.get? (pyIdx p.next_population.length i).toNat =
          some a →
      p.remove_child i = .ok (a,
        ⟨p.chromosome_list, p.mating_pool,
         p.next_population.eraseIdx
           (pyIdx p.next_population.length i).toNat⟩)) := by
  have hmap : ∀ (xs : List α) (e : PyError)
      (f : α × List α → α × Population α),
      ((list_pop xs i).map f = .error e ↔ list_pop xs i = .error e) := by
    intro xs e f
    cases h : list_pop xs i <;> simp [Except.map]
  have hok : ∀ (xs : List α), -(xs.length : Int) ≤ i →
      i < (xs.length : Int) → ∀ a : α,
      xs.get? (pyIdx xs.length i).toNat = some a →
      list_pop xs i =
        .ok (a, xs.eraseIdx (pyIdx xs.length i).toNat) := by
    intro xs hge hlt a hg
    by_cases hi : i < 0
    · simp only [pyIdx, if_pos hi] at hg ⊢
      exact (list_pop_spec xs i).2.2 hge hi a hg
    · simp only [pyIdx, if_neg hi] at hg ⊢
      exact (list_pop_spec xs i).2.1 (by omega) hlt a hg
  refine ⟨?_, ?_, ?_, ?_, ?_, ?_⟩
  · exact (hmap _ _ _).trans (list_pop_spec p.chromosome_list i).1
  · intro hge hlt a hg
    show (list_pop p.chromosome_list i).map _ = _
    rw [hok p.chromosome_list hge hlt a hg]
    rfl
  · exact (hmap _ _ _).trans (list_pop_spec p.mating_pool i).1
  · intro hge hlt a hg
    show (list_pop p.mating_pool i).map _ = _
    rw [hok p.mating_pool hge hlt a hg]
    rfl
  · exact (hmap _ _ _).trans (list_pop_spec p.next_population i).1
  · intro hge hlt a hg
    show (list_pop p.next_population i).map _ = _
    rw [hok p.next_population hge hlt a hg]
    rfl

/-- Witness for `remove_methods_spec`: popping the member at the negative
in-range index `-1` of a three-member population removes and returns the
last member. -/
theorem remove_methods_spec_witness :
    Population.remove_chromosome
        (⟨[1, 2, 3], [4], [5]⟩ : Population Nat) (-1) =
      .ok (3, ⟨[1, 2], [4], [5]⟩) := by
  have h := (remove_methods_spec
      (⟨[1, 2, 3], [4], [5]⟩ : Population Nat) (-1)).2.1
    (by decide) (by decide) 3 (by decide)
  rw [h]
  decide

/-- Counterexample to claim C7 as stated: the claim requires the removal
methods to fail with `IndexOutOfRange` whenever the index is outside
`[0, len)`, but `remove_parent` at index `-1` of a one-parent mating pool
succeeds and returns that parent (Python `list.pop` accepts negative
indices). -/
theorem remove_parent_negative_index_counterexample :
    Population.remove_parent (⟨[], [10], []⟩ : Population Nat) (-1) =
        .ok (10, ⟨[], [], []⟩) ∧
    ¬ (0 ≤ (-1 : Int) ∧ (-1 : Int) < (([10] : List Nat).length : Int)) := by
  decide

/-- Claim C9 (amended): `set_parent i` at a valid index appends
`chromosome_list[i]` itself to the mating pool — the very member object, not
a copy, so under the reference reading the new mating-pool entry shares gene
storage with `members[i]` — and leaves `chromosome_list` and
`next_population` unchanged. -/
theorem set_parent_appends_alias {α : Type} (p : Population α) (i : Int)
    (h0 : 0 ≤ i) (_h1 : i < (p.chromosome_list.length : Int)) :
    ∀ a : α, p.chromosome_list.get? i.toNat = some a →
    p.set_parent i =
      .ok ⟨p.chromosome_list, p.mating_pool ++ [a], p.next_population⟩ := by
  intro a hg
  show (pyGet p.chromosome_list i).map _ = _
  rw [(pyGet_spec p.chromosome_list i).1 h0 a hg]
  rfl

/-- Witness for `set_parent_appends_alias`: selecting index `1` of a
two-member population appends the second member to the mating pool and
leaves the member list unchanged. -/
theorem set_parent_appends_alias_witness :
    Population.set_parent (⟨[3, 4], [], []⟩ : Population Nat) 1 =
      .ok ⟨[3, 4], [4], []⟩ := by
  have h := set_parent_appends_alias (⟨[3, 4], [], []⟩ : Population Nat) 1
    (by decide) (by decide) 4 (by decide)
  rw [h]
  decide

/-- Counterexample to claim C9 as stated: reading the elements as object
references, the population whose single member is the object `7` yields,
after `set_parent 0`, a mating pool containing the same reference `7` — the
appended entry aliases `members[0]` instead of being a copy with storage of
its own, contradicting the claimed no-sharing property (a copy would be a
reference distinct from every reference already in the population). -/
theorem set_parent_aliases_counterexample :
    Population.set_parent (⟨[7], [], []⟩ : Population Nat) 0 =
      .ok ⟨[7], [7], []⟩ := by
  decide

/-- Claim C2 (defect evaluation): the no-guess branch of `index_of` never
performs the documented linear scan.  Its body
`return self.chromosome_list.index(gene)` references the name `gene`, which
is bound nowhere in the method or module, so the call raises `NameError`
even on a population that contains the searched chromosome — here the
chromosome `7`, present at index `1` of the member list. -/
theorem index_of_no_guess_raises_nameError :
    Population.index_of (⟨[5, 7], [], []⟩ : Population Nat) 7 none =
        .error .nameError ∧
    ([5, 7] : List Nat).get? 1 = some 7 := by
  decide

/-- Claim C5 (defect evaluation): `single_point` crossover at
`weight = 0.5` on parents of length `6` never draws a swap index.  The
branch executes `swap_index = random.randrange(N)`, and `N` is bound
nowhere in the module (the weighted branch binds lowercase `n`), so the
call raises `NameError` instead of producing a length-6 child — for every
value of the remaining random draws. -/
theorem single_point_half_weight_raises_nameError
    (weightedIdx : Nat) (choiceFirst : Bool) :
    single_point [1, 2, 3, 4, 5, 6] [7, 8, 9, 10, 11, 12]
        weightedIdx choiceFirst (1 / 2 : Rat) = .error .nameError := by
  have hw : (0 : Rat) < 1 / 2 ∧ (1 / 2 : Rat) < 1 := by norm_num
  simp only [single_point, check_weight, if_pos hw, single_point_impl,
    if_pos rfl]
  rfl

/-- Claim C6 (defect evaluation): `uniform` crossover never chooses genes.
For every weight accepted by `check_weight`, consuming the produced gene
sequence executes `random.choice(gene_pair, cum_weights=[weight, 1])`, and
`random.choice` accepts no `cum_weights` keyword argument, so the first
gene position raises `TypeError` — here on one-gene parents. -/
theorem uniform_raises_typeError (w : Rat) (h0 : 0 < w) (h1 : w < 1) :
    uniform [1] [2] w = .error .typeError := by
  have hw : 0 < w ∧ w < 1 := ⟨h0, h1⟩
  simp only [uniform, check_weight, if_pos hw]
  rfl

/-- Witness for `uniform_raises_typeError` at weight `1/2`. -/
theorem uniform_raises_typeError_witness :
    uniform [1] [2] (1 / 2 : Rat) = .error .typeError :=
  uniform_raises_typeError (1 / 2) (by norm_num) (by norm_num)

/-- Helper: the body of `single_point` never raises `InvalidWeight` (its
only failure mode is the `NameError` of the `weight == 0.5` branch). -/
theorem single_point_impl_ne {α : Type} (p1 p2 : List α) (wi : Nat)
    (cf : Bool) (w : Rat) :
    single_point_impl p1 p2 wi cf w ≠ .error .invalidWeight := by
  simp only [single_point_impl]
  split
  · simp
  · split <;> simp

/-- Helper: the body of `uniform` never raises `InvalidWeight` (its only
failure mode is the `TypeError` of the `cum_weights` call). -/
theorem uniform_impl_ne {α : Type} (p1 p2 : List α) (w : Rat) :
    uniform_impl p1 p2 w ≠ .error .invalidWeight := by
  simp only [uniform_impl]
  cases p1.zip p2 <;>
    simp [py_generator_map, random_choice_cum_weights]

/-- Claim C4 (amended): of the six individual recombination algorithms only
`single_point`, `multi_point`, `uniform` and `Arithmetic.random` carry the
`check_weight` decorator; those four fail with `InvalidWeight` exactly when
the weight is outside the open interval `(0, 1)` (and never fail with
`InvalidWeight` inside it).  `Arithmetic.average` and
`Arithmetic.extrapolate` perform no weight validation at all and never fail
with `InvalidWeight`, whatever the weight. -/
theorem check_weight_coverage {α : Type} (w : Rat) (p1 p2 : List α)
    (q1 q2 : List PyNum) (wi : Nat) (cf : Bool) (unit jit : Nat → Rat) :
    (single_point p1 p2 wi cf w = .error .invalidWeight ↔
        ¬ (0 < w ∧ w < 1)) ∧
    (multi_point p1 p2 w = .error .invalidWeight ↔ ¬ (0 < w ∧ w < 1)) ∧
    (uniform p1 p2 w = .error .invalidWeight ↔ ¬ (0 < w ∧ w < 1)) ∧
    (arithmetic_random q1 q2 unit jit w = .error .invalidWeight ↔
        ¬ (0 < w ∧ w < 1)) ∧
    average q1 q2 jit w ≠ .error .invalidWeight ∧
    extrapolate q1 q2 jit w ≠ .error .invalidWeight := by
  have havg : average q1 q2 jit w ≠ .error .invalidWeight := by
    simp [average]
  have hext : extrapolate q1 q2 jit w ≠ .error .invalidWeight := by
    simp [extrapolate]
  by_cases hw : 0 < w ∧ w < 1
  · refine ⟨?_, ?_, ?_, ?_, havg, hext⟩
    · refine iff_of_false ?_ (not_not_intro hw)
      simp only [single_point, check_weight, if_pos hw]
      exact single_point_impl_ne p1 p2 wi cf w
    · refine iff_of_false ?_ (not_not_intro hw)
      simp only [multi_point, check_weight, if_pos hw, multi_point_impl]
      simp
    · refine iff_of_false ?_ (not_not_intro hw)
      simp only [uniform, check_weight, if_pos hw]
      exact uniform_impl_ne p1 p2 w
    · refine iff_of_false ?_ (not_not_intro hw)
      simp only [arithmetic_random, check_weight, if_pos hw,
        arithmetic_random_impl]
      simp
  · refine ⟨?_, ?_, ?_, ?_, havg, hext⟩ <;>
      exact iff_of_true
        (by simp only [single_point, multi_point, uniform,
              arithmetic_random, check_weight, if_neg hw]) hw

/-- Witness for `check_weight_coverage`: at the out-of-range weight `2` the
checked method `single_point` fails with `InvalidWeight`. -/
theorem check_weight_coverage_witness :
    single_point ([1] : List Nat) [2] 0 true 2 = .error .invalidWeight :=
  (check_weight_coverage 2 [1] [2] [] [] 0 true const_zero_draw
    const_zero_draw).1.mpr (by norm_num)

/-- Counterexample to claim C4 as stated: the claim requires every
recombination algorithm of the family — `Arithmetic.average` among them —
to fail with `InvalidWeight` when the weight is `0`.  `Arithmetic.average`
carries no `check_weight` decorator, so on the one-gene float parents `(4.0)`
and `(6.0)` with weight `0` it succeeds and returns the gene value
`0*4 + (1-0)*6 = 6.0` instead of failing. -/
theorem average_accepts_zero_weight_counterexample :
    average [⟨4, false⟩] [⟨6, false⟩] const_zero_draw 0 =
        .ok [⟨6, false⟩] ∧
    ¬ ((0 : Rat) < 0 ∧ (0 : Rat) < 1) := by
  constructor
  · simp only [average, List.zip, List.zipWith, List.enum, List.enumFrom,
      List.map, average_value, const_zero_draw]
    norm_num
  · norm_num

/-- Helper: the identity counter of `deepcopy` never decreases. -/
theorem deepcopy_counter_le (o : Obj) (fresh : Int) :
    fresh ≤ (deepcopy o fresh).2 := by
  induction o generalizing fresh with
  | atom i v => simp only [deepcopy]; omega
  | withValue i inner ih =>
    simp only [deepcopy]
    have h := ih fresh
    omega

/-- Helper: `deepcopy` preserves the shape of the object tree. -/
theorem deepcopy_shape (o : Obj) (fresh : Int) :
    ((deepcopy o fresh).1).shape = o.shape := by
  induction o generalizing fresh with
  | atom i v => rfl
  | withValue i inner ih => simp [deepcopy, Obj.shape, ih]

/-- Helper: every identity in a `deepcopy` result is drawn from the fresh
counter onwards. -/
theorem deepcopy_oids_fresh (o : Obj) (fresh : Int) :
    ∀ x ∈ ((deepcopy o fresh).1).oids, fresh ≤ x := by
  induction o generalizing fresh with
  | atom i v =>
    intro x hx
    simp only [deepcopy, Obj.oids, List.mem_singleton] at hx
    omega
  | withValue i inner ih =>
    intro x hx
    simp only [deepcopy, Obj.oids, List.mem_cons] at hx
    rcases hx with h | h
    · have hc := deepcopy_counter_le inner fresh
      omega
    · exact ih fresh x h

/-- Claim C10: `Gene.__init__` stores, when reading `value.value` succeeds
(the argument is any object exposing a `value` attribute, Gene or not), a
deep copy of that attribute — silently unwrapping it — and otherwise a deep
copy of the argument itself; construction always terminates normally (the
embedding is a total function).  Deep copy means: the stored object has the
same shape as the source but carries only fresh identities, so whenever all
identities of the argument predate the fresh counter, the stored object
shares no node with the argument. -/
theorem gene_init_spec (v : Obj) (fresh : Int) :
    ((gene_init v fresh).1).shape = (v.valueAttr.getD v).shape ∧
    (∀ x ∈ ((gene_init v fresh).1).oids, fresh ≤ x) ∧
    ((∀ x ∈ v.oids, x < fresh) →
      ∀ x ∈ ((gene_init v fresh).1).oids, x ∉ v.oids) := by
  refine ⟨?_, ?_, ?_⟩
  · cases v with
    | atom i p => exact deepcopy_shape (Obj.atom i p) fresh
    | withValue i inner => exact deepcopy_shape inner fresh
  · cases v with
    | atom i p => exact deepcopy_oids_fresh (Obj.atom i p) fresh
    | withValue i inner => exact deepcopy_oids_fresh inner fresh
  · intro hold x hx hmem
    have h1 : fresh ≤ x := by
      cases v with
      | atom i p => exact deepcopy_oids_fresh (Obj.atom i p) fresh x hx
      | withValue i inner => exact deepcopy_oids_fresh inner fresh x hx
    have h2 : x < fresh := hold x hmem
    omega

/-- Witness for `gene_init_spec`: constructing a gene from the wrapper
object `withValue 0 (atom 1 42)` with fresh counter `2` stores a copy of
the inner atom whose identity `2` does not occur in the argument. -/
theorem gene_init_spec_witness :
    (2 : Int) ∉ (Obj.withValue 0 (Obj.atom 1 42)).oids :=
  (gene_init_spec (Obj.withValue 0 (Obj.atom 1 42)) 2).2.2
    (by decide) 2 (by decide)

/-- Helper: a successful Python read at `j` is the list entry at the index
`j` reduced modulo the length. -/
theorem pyGet_ok_emod {α : Type} (xs : List α) (j : Int) (a : α)
    (h : pyGet xs j = .ok a) :
    xs.get? ((j % (xs.length : Int)).toNat) = some a := by
  simp only [pyGet] at h
  by_cases h0 : pyIdx xs.length j < 0
  · rw [if_pos h0] at h
    exact absurd h (by simp)
  · rw [if_neg h0] at h
    rcases hg : xs.get? ((pyIdx xs.length j).toNat) with _ | b
    · rw [hg] at h
      exact absurd h (by simp)
    · rw [hg] at h
      rw [Except.ok.injEq] at h
      subst h
      have hlt : (pyIdx xs.length j).toNat < xs.length := by
        by_contra hc
        rw [List.get?_eq_none.mpr (by omega)] at hg
        exact Option.noConfusion hg
      have hemod : j % (xs.length : Int) = pyIdx xs.length j := by
        simp only [pyIdx] at h0 hlt ⊢
        by_cases hj : j < 0
        · rw [if_pos hj] at h0 hlt ⊢
          have he : (j + (xs.length : Int)) % (xs.length : Int) =
              j % (xs.length : Int) := by
            have hm := Int.add_mul_emod_self_left (a := j)
              (b := (xs.length : Int)) (c := 1)
            rw [mul_one] at hm
            exact hm
          rw [← he]
          exact Int.emod_eq_of_lt (by omega) (by omega)
        · rw [if_neg hj] at h0 hlt ⊢
          exact Int.emod_eq_of_lt (by omega) (by omega)
      rw [hemod]
      exact hg

/-- Helper: a Python read at an index inside `[-len, len)` succeeds. -/
theorem pyGet_in_range {α : Type} (xs : List α) (j : Int)
    (h1 : -(xs.length : Int) ≤ j) (h2 : j < (xs.length : Int)) :
    ∃ b, pyGet xs j = .ok b := by
  have hk : 0 ≤ pyIdx xs.length j ∧ pyIdx xs.length j < (xs.length : Int) := by
    unfold pyIdx
    split <;> omega
  have hlt : (pyIdx xs.length j).toNat < xs.length := by omega
  refine ⟨xs.get ⟨(pyIdx xs.length j).toNat, hlt⟩, ?_⟩
  simp only [pyGet, if_neg (show ¬ pyIdx xs.length j < 0 by omega),
    List.get?_eq_get hlt]

/-- Helper: every index returned by the probe loop points at an entry equal
to the searched chromosome. -/
theorem index_search_sound {α : Type} [DecidableEq α] (xs : List α) (c : α)
    (g : Int) :
    ∀ r i k, index_search xs c g i r = .ok k → xs.get? k = some c := by
  intro r
  induction r with
  | zero =>
    intro i k h
    exact absurd h (by simp [index_search])
  | succ r ih =>
    intro i k h
    rcases hx : pyGet xs (g - i) with e | x
    · simp only [index_search, hx] at h
      exact Except.noConfusion h
    · simp only [index_search, hx] at h
      by_cases hxc : x = c
      · rw [if_pos hxc] at h
        rw [Except.ok.injEq] at h
        subst h
        subst hxc
        exact pyGet_ok_emod xs (g - i) x hx
      · rw [if_neg hxc] at h
        rcases hy : pyGet xs (g + i) with e | y
        · simp only [hy] at h
          exact Except.noConfusion h
        · simp only [hy] at h
          by_cases hyc : y = c
          · rw [if_pos hyc] at h
            rw [Except.ok.injEq] at h
            subst h
            subst hyc
            exact pyGet_ok_emod xs (g + i) y hy
          · rw [if_neg hyc] at h
            exact ih (i + 1) k h

/-- Helper: when the normalized guess lies in the window
`[len//2 - len, len//2)` and the loop has at most `len//2 - i` iterations
left, every probe of the loop is in range, so the only failure the loop can
produce is the final `ChromosomeNotFound`. -/
theorem index_search_error {α : Type} [DecidableEq α] (xs : List α) (c : α)
    (g : Int) :
    ∀ r i e, i + r ≤ xs.length / 2 →
      (xs.length : Int) / 2 - (xs.length : Int) ≤ g →
      g < (xs.length : Int) / 2 →
      0 < xs.length →
      index_search xs c g i r = .error e → e = .chromosomeNotFound := by
  intro r
  induction r with
  | zero =>
    intro i e _ _ _ _ h
    simp only [index_search] at h
    exact (Except.error.inj h).symm
  | succ r ih =>
    intro i e hir hg1 hg2 hn h
    obtain ⟨x, hx⟩ := pyGet_in_range xs (g - i) (by omega) (by omega)
    simp only [index_search, hx] at h
    by_cases hxc : x = c
    · rw [if_pos hxc] at h
      exact absurd h (by simp)
    · rw [if_neg hxc] at h
      obtain ⟨y, hy⟩ := pyGet_in_range xs (g + i) (by omega) (by omega)
      simp only [hy] at h
      by_cases hyc : y = c
      · rw [if_pos hyc] at h
        exact absurd h (by simp)
      · rw [if_neg hyc] at h
        exact ih (i + 1) e (by omega) hg1 hg2 hn h

/-- Claim C3 (amended): on a non-empty population the guessed search
normalizes the guess by symmetric modulo into `[len//2 - len, len//2)`,
probes `guess-i` and `guess+i` (mod length) for `i` in `0 .. len//2 - 1`,
and returns the mod-length-reduced index of the first probed member equal
to the searched chromosome: every index it returns points at a member equal
to the chromosome, and its only failure mode is `ChromosomeNotFound`,
raised when the probed window is exhausted.  The window does not cover the
whole population, so the search can fail even when a matching member exists
(see the counterexample). -/
theorem index_of_guessed_spec {α : Type} [DecidableEq α] (xs : List α)
    (c : α) (guess : Int) (hne : xs ≠ []) :
    (∀ k, index_of_guessed xs c guess = .ok k → xs.get? k = some c) ∧
    (∀ e, index_of_guessed xs c guess = .error e →
      e = .chromosomeNotFound) := by
  have hn : 0 < xs.length := List.length_pos.mpr hne
  have hnz : ¬ xs.length = 0 := by omega
  have hm1 : 0 ≤ guess % (xs.length : Int) :=
    Int.emod_nonneg guess (by omega)
  have hm2 : guess % (xs.length : Int) < (xs.length : Int) :=
    Int.emod_lt_of_pos guess (by omega)
  constructor
  · intro k h
    simp only [index_of_guessed, if_neg hnz] at h
    exact index_search_sound xs c _ _ 0 k h
  · intro e h
    simp only [index_of_guessed, if_neg hnz] at h
    by_cases hcase :
        (xs.length : Int) / 2 ≤ guess % (xs.length : Int)
    · rw [if_pos hcase] at h
      exact index_search_error xs c _ (xs.length / 2) 0 e (by omega)
        (by omega) (by omega) hn h
    · rw [if_neg hcase] at h
      exact index_search_error xs c _ (xs.length / 2) 0 e (by omega)
        (by omega) (by omega) hn h

/-- Witness for `index_of_guessed_spec`: on the population `[7, 5]` with
guess `0`, the guessed search finds the chromosome `7` at index `0`. -/
theorem index_of_guessed_spec_witness :
    ([7, 5] : List Nat).get? 0 = some 7 :=
  (index_of_guessed_spec [7, 5] 7 0 (by decide)).1 0 (by decide)

/-- Counterexample to claim C3 as stated: the claim asserts that whenever
some member equals the searched chromosome, the guessed search returns an
index whose member equals it.  On the four-member population
`[0, 0, 1, 0]` the chromosome `1` is present (at index `2`), yet the
search with guess `0` probes only the indices `0, 3, 1`
(`guess±i` for `i` in `0..1`) and fails with `ChromosomeNotFound`. -/
theorem index_of_guessed_incomplete_counterexample :
    index_of_guessed ([0, 0, 1, 0] : List Nat) 1 0 =
        .error .chromosomeNotFound ∧
    ([0, 0, 1, 0] : List Nat).get? 2 = some 1 := by
  decide

end EasyGA
